import Mathlib

/-!
Shallow embedding of `src/dicom_image_filter.py` (the filter-dispatch core;
the Qt widget-binding code carries no algorithmic content and is out of
scope, per the specification).

Modelling choices:
* Pixel values are rationals (`ℚ`), an exact superset of the integer and
  floating-point dtypes the Python code manipulates.
* A pixel array is a list of rows (`List (List ℚ)`).
* A `dispatch` call is modelled by a `DispatchResult`: the post-call
  contents of the buffer the caller passed in (Python arrays are mutable,
  so in-place filters change it), and the value the Python function
  returns (`none` models Python `None`, produced by a bare `return` or by
  falling off the end of the function body).
* Python `//` is floor division, embedded as `Int.fdiv`.
* Python list indexing (`xs[i]`) admits negative indices counting from
  the end and raises `IndexError` outside `[-len, len)`; `pyGet` embeds
  exactly that.
* `cv.dilate` / `cv.erode` with an all-ones `kx × ky` kernel, default
  (centred) anchor and default border mode compute the per-pixel
  max / min over the in-bounds part of the kernel window (the default
  morphology border value makes out-of-bounds pixels neutral), repeated
  `iterations` times; called with `dst = src` they write the result back
  into the source buffer.
-/

abbrev PixelArray : Type := List (List ℚ)

/-- The DICOM dataset, reduced to the two optional attributes the filters
read (`hasattr` / attribute access in the source becomes an `Option`). -/
structure DicomDS where
  RescaleSlope : Option ℚ
  RescaleIntercept : Option ℚ
deriving DecidableEq

/-- Result of a Python-level `dispatch(dicom_ds, pixel_array)` call:
`buffer` is the content of the caller array after the call and `ret` the
returned value (`none` for Python `None`). -/
structure DispatchResult where
  buffer : PixelArray
  ret : Option PixelArray
deriving DecidableEq

/-- `@dataclass class WindowingProperties: width: int; level: int`
(note the field order: `width` is the first positional field). -/
structure WindowingProperties where
  width : ℤ
  level : ℤ
deriving DecidableEq

/-- `@dataclass class FilterMorphologyProperties: kernel_x; kernel_y; iterations`
(the bound spin boxes only produce nonnegative values, hence `ℕ`). -/
structure FilterMorphologyProperties where
  kernel_x : ℕ
  kernel_y : ℕ
  iterations : ℕ
deriving DecidableEq

/-- The four filter variants of the catalog, each carrying its mutable
parameter record (`self.properties`). -/
inductive FilterInstance where
  | transformToHU : FilterInstance
  | windowing : WindowingProperties → FilterInstance
  | morphologyDilate : FilterMorphologyProperties → FilterInstance
  | morphologyErode : FilterMorphologyProperties → FilterInstance
deriving DecidableEq

/-- `FilterTransformToHU.__init__`: sets no properties. -/
def FilterTransformToHU.new : FilterInstance := .transformToHU

/-- `FilterWindowing.__init__`: `self.properties = WindowingProperties(40, 48)`,
i.e. positionally `width := 40, level := 48`. -/
def FilterWindowing.new : FilterInstance := .windowing ⟨40, 48⟩

/-- `FilterMorphologyDilate.__init__`: `FilterMorphologyProperties(5, 5, 1)`. -/
def FilterMorphologyDilate.new : FilterInstance := .morphologyDilate ⟨5, 5, 1⟩

/-- `FilterMorphologyErode.__init__`: `FilterMorphologyProperties(5, 5, 1)`. -/
def FilterMorphologyErode.new : FilterInstance := .morphologyErode ⟨5, 5, 1⟩

/-- `_inplace` class attribute of each variant. -/
def isInplaceOp : FilterInstance → Bool
  | .transformToHU => false
  | .windowing _ => false
  | .morphologyDilate _ => true
  | .morphologyErode _ => true

/-- `_display_name` class attribute of each variant. -/
def displayName : FilterInstance → String
  | .transformToHU => "Transform2HU"
  | .windowing _ => "CTWindowing"
  | .morphologyDilate _ => "Dilate"
  | .morphologyErode _ => "Erode"

/-- `FilterTransformToHU.dispatch`: bare `return` (Python `None`) when
`RescaleIntercept` or `RescaleSlope` is absent, otherwise returns the new
array `pixel_array * slope + intercept`; the input buffer is never
written. -/
def FilterTransformToHU.dispatch (dicom_ds : DicomDS) (pixel_array : PixelArray) :
    DispatchResult :=
  match dicom_ds.RescaleIntercept with
  | none => ⟨pixel_array, none⟩
  | some intercept =>
    match dicom_ds.RescaleSlope with
    | none => ⟨pixel_array, none⟩
    | some slope =>
      ⟨pixel_array, some (pixel_array.map (fun row => row.map (fun v => v * slope + intercept)))⟩

/-- `FilterWindowing.dispatch`: `img_min = level - width // 2`,
`img_max = level + width // 2`, then the two masked in-place assignments
(first raise everything below `img_min`, then lower everything above
`img_max`), and `return pixel_array`. -/
def FilterWindowing.dispatch (p : WindowingProperties) (pixel_array : PixelArray) :
    DispatchResult :=
  let img_min : ℚ := ((p.level - p.width.fdiv 2 : ℤ) : ℚ)
  let img_max : ℚ := ((p.level + p.width.fdiv 2 : ℤ) : ℚ)
  let step1 := pixel_array.map (fun row => row.map (fun v => if v < img_min then img_min else v))
  let step2 := step1.map (fun row => row.map (fun v => if img_max < v then img_max else v))
  ⟨step2, some step2⟩

/-- Bounds-checked 2-D read used to model the morphology border handling:
`none` outside the grid. -/
def pixAt (a : PixelArray) (i j : ℤ) : Option ℚ :=
  if i < 0 ∨ j < 0 then none
  else
    match a.get? i.toNat with
    | none => none
    | some row => row.get? j.toNat

/-- Offsets of a `kx × ky` all-ones kernel around its centred anchor
(`kx` rows, `ky` columns, anchor at `(kx / 2, ky / 2)`). -/
def windowOffsets (kx ky : ℕ) : List (ℤ × ℤ) :=
  (List.range kx).flatMap (fun (di : ℕ) =>
    (List.range ky).map (fun (dj : ℕ) =>
      ((di : ℤ) - ((kx / 2 : ℕ) : ℤ), (dj : ℤ) - ((ky / 2 : ℕ) : ℤ))))

/-- The in-bounds pixel values inside the kernel window centred at
`(i, j)` (out-of-bounds positions contribute nothing: OpenCV default
morphology border value is neutral). -/
def neighborVals (a : PixelArray) (kx ky : ℕ) (i j : ℤ) : List ℚ :=
  (windowOffsets kx ky).filterMap (fun o => pixAt a (i + o.1) (j + o.2))

/-- Value of row `i`, column `j` (0 when out of bounds; only used at
in-bounds positions). -/
def entryAt (a : PixelArray) (i j : ℕ) : ℚ :=
  ((a.get? i).getD []).get? j |>.getD 0

/-- One grayscale dilation pass: each output pixel is the maximum of the
in-bounds kernel window (which always contains the pixel itself for a
nonempty kernel). -/
def dilateOnce (kx ky : ℕ) (a : PixelArray) : PixelArray :=
  (List.range a.length).map (fun (i : ℕ) =>
    (List.range ((a.get? i).getD []).length).map (fun (j : ℕ) =>
      (neighborVals a kx ky (i : ℤ) (j : ℤ)).foldl max (entryAt a i j)))

/-- One grayscale erosion pass: per-pixel minimum over the in-bounds
kernel window. -/
def erodeOnce (kx ky : ℕ) (a : PixelArray) : PixelArray :=
  (List.range a.length).map (fun (i : ℕ) =>
    (List.range ((a.get? i).getD []).length).map (fun (j : ℕ) =>
      (neighborVals a kx ky (i : ℤ) (j : ℤ)).foldl min (entryAt a i j)))

/-- `FilterMorphologyDilate.dispatch`: `cv.dilate(pixel_array, ones(kx, ky),
pixel_array, iterations=n)` writes the `n`-fold dilation into the same
buffer; the Python function body has no `return`, so the call yields
`None`. -/
def FilterMorphologyDilate.dispatch (p : FilterMorphologyProperties)
    (pixel_array : PixelArray) : DispatchResult :=
  ⟨(dilateOnce p.kernel_x p.kernel_y)^[p.iterations] pixel_array, none⟩

/-- `FilterMorphologyErode.dispatch`: same shape as dilate with
`cv.erode`; yields `None`. -/
def FilterMorphologyErode.dispatch (p : FilterMorphologyProperties)
    (pixel_array : PixelArray) : DispatchResult :=
  ⟨(erodeOnce p.kernel_x p.kernel_y)^[p.iterations] pixel_array, none⟩

/-- Uniform `dispatch(dicom_ds, pixel_array)` over the four variants. -/
def dispatch : FilterInstance → DicomDS → PixelArray → DispatchResult
  | .transformToHU, ds, a => FilterTransformToHU.dispatch ds a
  | .windowing p, _, a => FilterWindowing.dispatch p a
  | .morphologyDilate p, _, a => FilterMorphologyDilate.dispatch p a
  | .morphologyErode p, _, a => FilterMorphologyErode.dispatch p a

/-- Raised by out-of-range Python list indexing. -/
inductive IndexErr where
  | indexOutOfRange : IndexErr
deriving DecidableEq

/-- Python list indexing `xs[i]`: negative indices count from the end;
indices outside `[-len, len)` raise `IndexError`. -/
def pyGet {α : Type} (xs : List α) (i : ℤ) : Except IndexErr α :=
  let k : ℤ := if i < 0 then i + xs.length else i
  if k < 0 then .error .indexOutOfRange
  else
    match xs.get? k.toNat with
    | some x => .ok x
    | none => .error .indexOutOfRange

/-- `dicom_image_filters`, the ordered catalog, with each class replaced
by its freshly constructed instance (construction is pure). -/
def dicom_image_filters : List FilterInstance :=
  [FilterTransformToHU.new, FilterWindowing.new,
   FilterMorphologyDilate.new, FilterMorphologyErode.new]

/-- `def newFilter(filter_enum): return dicom_image_filters[filter_enum]()`. -/
def newFilter (filter_enum : ℤ) : Except IndexErr FilterInstance :=
  pyGet dicom_image_filters filter_enum

instance {ε α : Type} [DecidableEq ε] [DecidableEq α] : DecidableEq (Except ε α) := fun x y =>
  match x, y with
  | .error e, .error f => decidable_of_iff (e = f) (by simp)
  | .ok a, .ok b => decidable_of_iff (a = b) (by simp)
  | .error _, .ok _ => isFalse (by simp)
  | .ok _, .error _ => isFalse (by simp)

/-- Characterization of when `newFilter` raises: only for indices at or
above the catalog size, or below its negation (Python indexing). -/
theorem newFilter_error_iff (i : ℤ) :
    newFilter i = Except.error IndexErr.indexOutOfRange ↔ 4 ≤ i ∨ i < -4 := by
  rcases (by omega :
      i < -4 ∨ i = -4 ∨ i = -3 ∨ i = -2 ∨ i = -1 ∨
      i = 0 ∨ i = 1 ∨ i = 2 ∨ i = 3 ∨ 4 ≤ i) with h | h | h | h | h | h | h | h | h | h
  · unfold newFilter pyGet dicom_image_filters
    have h0 : i < 0 := by omega
    simp only [List.length_cons, List.length_nil, h0, if_true, if_pos h0]
    rw [if_pos (by push_cast; omega)]
    exact iff_of_true rfl (Or.inr h)
  · subst h; decide
  · subst h; decide
  · subst h; decide
  · subst h; decide
  · subst h; decide
  · subst h; decide
  · subst h; decide
  · subst h; decide
  · unfold newFilter pyGet dicom_image_filters
    have h0 : ¬ i < 0 := by omega
    simp only [List.length_cons, List.length_nil, if_neg h0]
    rw [List.get?_eq_none.mpr (by simp; omega)]
    exact iff_of_true rfl (Or.inl h)

/-- C1 (counterexample): `newFilter 1` constructs the Windowing filter as
`WindowingProperties(40, 48)`, whose first positional field is `width`,
so the default `level` is 48, not the 40 the claim states (and the
default `width` is 40, not 48). -/
theorem C1_counterexample :
    newFilter 1 = Except.ok (FilterInstance.windowing ⟨40, 48⟩) ∧
    WindowingProperties.level ⟨40, 48⟩ ≠ 40 ∧
    WindowingProperties.width ⟨40, 48⟩ ≠ 48 := by
  decide

/-- C1 (amended): for every valid catalog index the constructed filter
carries the defaults actually written in the constructors: the Windowing
filter has `width = 40` and `level = 48` (the positional order of
`WindowingProperties(40, 48)`), and both morphology filters have
`kernel_x = 5`, `kernel_y = 5`, `iterations = 1`. -/
theorem C1_default_params :
    newFilter 0 = Except.ok FilterInstance.transformToHU ∧
    newFilter 1 = Except.ok (FilterInstance.windowing ⟨40, 48⟩) ∧
    WindowingProperties.width ⟨40, 48⟩ = 40 ∧
    WindowingProperties.level ⟨40, 48⟩ = 48 ∧
    newFilter 2 = Except.ok (FilterInstance.morphologyDilate ⟨5, 5, 1⟩) ∧
    newFilter 3 = Except.ok (FilterInstance.morphologyErode ⟨5, 5, 1⟩) ∧
    FilterMorphologyProperties.kernel_x ⟨5, 5, 1⟩ = 5 ∧
    FilterMorphologyProperties.kernel_y ⟨5, 5, 1⟩ = 5 ∧
    FilterMorphologyProperties.iterations ⟨5, 5, 1⟩ = 1 := by
  decide

/-- C2: with `RescaleSlope` or `RescaleIntercept` absent,
`FilterTransformToHU.dispatch` leaves the pixel buffer untouched and
raises nothing, but its bare `return` yields Python `None` rather than
the input array the claim (and the base-class return annotation)
promises. Evaluated at the failing inputs. -/
theorem C2_missing_field_yields_none :
    (FilterTransformToHU.dispatch ⟨none, none⟩ [[1, 2], [3, 4]]).ret = none ∧
    (FilterTransformToHU.dispatch ⟨none, none⟩ [[1, 2], [3, 4]]).buffer = [[1, 2], [3, 4]] ∧
    (FilterTransformToHU.dispatch ⟨some 2, none⟩ [[1, 2], [3, 4]]).ret = none ∧
    (FilterTransformToHU.dispatch ⟨some 2, none⟩ [[1, 2], [3, 4]]).buffer = [[1, 2], [3, 4]] ∧
    (FilterTransformToHU.dispatch ⟨none, some 3⟩ [[1, 2], [3, 4]]).ret = none ∧
    (FilterTransformToHU.dispatch ⟨none, some 3⟩ [[1, 2], [3, 4]]).buffer = [[1, 2], [3, 4]] := by
  decide

/-- C3 (counterexample): `-1` lies outside `[0, 4)`, yet `newFilter (-1)`
does not raise: Python list indexing accepts negative indices, returning
the Erode filter. This refutes the "if and only if" of the claim. -/
theorem C3_counterexample :
    ¬ (0 ≤ (-1 : ℤ) ∧ (-1 : ℤ) < 4) ∧
    newFilter (-1) = Except.ok (FilterInstance.morphologyErode ⟨5, 5, 1⟩) := by
  decide

/-- C3 (amended): `newFilter` raises the index error exactly when the
index is at least 4 or below -4; each index in `[0, 4)` yields a freshly
constructed filter of the variant at that position, in catalog order
TransformToHU, Windowing, MorphologyDilate, MorphologyErode. -/
theorem C3_newFilter_range (i : ℤ) :
    (newFilter i = Except.error IndexErr.indexOutOfRange ↔ 4 ≤ i ∨ i < -4) ∧
    newFilter 0 = Except.ok FilterTransformToHU.new ∧
    newFilter 1 = Except.ok FilterWindowing.new ∧
    newFilter 2 = Except.ok FilterMorphologyDilate.new ∧
    newFilter 3 = Except.ok FilterMorphologyErode.new :=
  ⟨newFilter_error_iff i, by decide, by decide, by decide, by decide⟩

/-- C9: negative indices in `[-4, -1]` do not raise: Python indexing
counts them from the end of the four-entry catalog, and the index error
occurs exactly for indices at least 4 or below -4. -/
theorem C9_negative_indexing (i : ℤ) :
    newFilter (-1) = Except.ok FilterMorphologyErode.new ∧
    newFilter (-2) = Except.ok FilterMorphologyDilate.new ∧
    newFilter (-3) = Except.ok FilterWindowing.new ∧
    newFilter (-4) = Except.ok FilterTransformToHU.new ∧
    (newFilter i = Except.error IndexErr.indexOutOfRange ↔ 4 ≤ i ∨ i < -4) :=
  ⟨by decide, by decide, by decide, by decide, newFilter_error_iff i⟩

/-- Reading an in-bounds entry of an element-wise mapped grid gives the
mapped entry. -/
theorem entryAt_map (f : ℚ → ℚ) (a : PixelArray) (i j : ℕ)
    (hi : i < a.length) (hj : j < ((a.get? i).getD []).length) :
    entryAt (a.map (fun row => row.map f)) i j = f (entryAt a i j) := by
  unfold entryAt
  rw [List.get?_map]
  rcases h : a.get? i with _ | row
  · rw [List.get?_eq_none] at h; omega
  · rw [h] at hj
    simp only [Option.map_some', Option.getD_some] at hj ⊢
    rw [List.get?_map]
    rcases hv : row.get? j with _ | v
    · rw [List.get?_eq_none] at hv; omega
    · simp [hv]

/-- C5: with both rescale attributes present, the HU transform returns a
new array obtained by mapping `v * slope + intercept` over every element
(stated both as the whole-array map and entry-wise). -/
theorem C5_hu_rescale (ds : DicomDS) (slope intercept : ℚ) (a : PixelArray)
    (hs : ds.RescaleSlope = some slope) (hi : ds.RescaleIntercept = some intercept) :
    (FilterTransformToHU.dispatch ds a).ret
      = some (a.map (fun row => row.map (fun v => v * slope + intercept))) ∧
    ∀ i j : ℕ, i < a.length → j < ((a.get? i).getD []).length →
      entryAt (a.map (fun row => row.map (fun v => v * slope + intercept))) i j
        = entryAt a i j * slope + intercept := by
  constructor
  · simp [FilterTransformToHU.dispatch, hi, hs]
  · intro i j h1 h2
    exact entryAt_map _ a i j h1 h2

/-- Witness for C5 at slope 2, intercept -1024 on `[[0, 1], [100, 500]]`:
every value `v` becomes `2 * v - 1024`. -/
theorem C5_hu_rescale_witness :
    (FilterTransformToHU.dispatch ⟨some 2, some (-1024)⟩ [[0, 1], [100, 500]]).ret
      = some [[-1024, -1022], [-824, -24]] := by
  have h := (C5_hu_rescale ⟨some 2, some (-1024)⟩ 2 (-1024) [[0, 1], [100, 500]] rfl rfl).1
  rw [h]
  norm_num

/-- C10: with both rescale attributes present, the HU transform never
writes to the input buffer; the rescaled values live only in the newly
built returned array. -/
theorem C10_input_not_mutated (ds : DicomDS) (slope intercept : ℚ) (a : PixelArray)
    (hs : ds.RescaleSlope = some slope) (hi : ds.RescaleIntercept = some intercept) :
    (FilterTransformToHU.dispatch ds a).buffer = a := by
  simp [FilterTransformToHU.dispatch, hi, hs]

/-- Witness for C10 at slope 2, intercept -1024 on `[[5, 7]]`. -/
theorem C10_input_not_mutated_witness :
    (FilterTransformToHU.dispatch ⟨some 2, some (-1024)⟩ [[5, 7]]).buffer = [[5, 7]] :=
  C10_input_not_mutated ⟨some 2, some (-1024)⟩ 2 (-1024) [[5, 7]] rfl rfl

/-- The two sequential masked assignments of the windowing dispatch
amount to a single two-sided clamp whenever the window is nonempty. -/
theorem windowing_buffer_eq_clamp (p : WindowingProperties) (a : PixelArray)
    (h : ((p.level - p.width.fdiv 2 : ℤ) : ℚ) ≤ ((p.level + p.width.fdiv 2 : ℤ) : ℚ)) :
    (FilterWindowing.dispatch p a).buffer
      = a.map (fun row => row.map (fun v =>
          if v < ((p.level - p.width.fdiv 2 : ℤ) : ℚ) then ((p.level - p.width.fdiv 2 : ℤ) : ℚ)
          else if ((p.level + p.width.fdiv 2 : ℤ) : ℚ) < v then ((p.level + p.width.fdiv 2 : ℤ) : ℚ)
          else v)) := by
  unfold FilterWindowing.dispatch
  simp only [List.map_map]
  congr 1
  funext row
  rw [Function.comp_apply, List.map_map]
  congr 1
  funext v
  by_cases hv : v < ((p.level - p.width.fdiv 2 : ℤ) : ℚ)
  · simp only [Function.comp_apply, if_pos hv]
    rw [if_neg (not_lt.mpr h)]
  · simp only [Function.comp_apply, if_neg hv]

/-- C6: the windowing dispatch computes the window bounds with floor
division, clamps each element into them (whenever the width is
nonnegative, so the window is nonempty), writes the clamped values into
the buffer it was given and returns that buffer; with level 40, width 48
the bounds are 16 and 64 and `[-100, 16, 64, 200]` becomes
`[16, 16, 64, 64]`. -/
theorem C6_windowing_clamps (level width : ℤ) (a : PixelArray) (hw : 0 ≤ width) :
    ((FilterWindowing.dispatch ⟨width, level⟩ a).buffer
      = a.map (fun row => row.map (fun v =>
          if v < ((level - width.fdiv 2 : ℤ) : ℚ) then ((level - width.fdiv 2 : ℤ) : ℚ)
          else if ((level + width.fdiv 2 : ℤ) : ℚ) < v then ((level + width.fdiv 2 : ℤ) : ℚ)
          else v))) ∧
    (FilterWindowing.dispatch ⟨width, level⟩ a).ret
      = some (FilterWindowing.dispatch ⟨width, level⟩ a).buffer ∧
    (48 : ℤ).fdiv 2 = 24 ∧ (40 : ℤ) - 24 = 16 ∧ (40 : ℤ) + 24 = 64 ∧
    (FilterWindowing.dispatch ⟨48, 40⟩ [[-100, 16, 64, 200]]).buffer = [[16, 16, 64, 64]] := by
  refine ⟨?_, rfl, by decide, by decide, by decide, by decide⟩
  have hd : (0 : ℤ) ≤ width.fdiv 2 := Int.fdiv_nonneg hw (by norm_num)
  have hz : (level - width.fdiv 2 : ℤ) ≤ level + width.fdiv 2 := by omega
  exact windowing_buffer_eq_clamp ⟨width, level⟩ a (by exact_mod_cast hz)

/-- Witness for C6 at level 40, width 48 on `[[-100, 16, 64, 200]]`. -/
theorem C6_windowing_clamps_witness :
    (0 : ℤ) ≤ 48 ∧
    (FilterWindowing.dispatch ⟨48, 40⟩ [[-100, 16, 64, 200]]).buffer = [[16, 16, 64, 64]] :=
  ⟨by decide, (C6_windowing_clamps 40 48 [[-100, 16, 64, 200]] (by decide)).2.2.2.2.2⟩

/-- The seed of a `foldl max` is a lower bound of the result. -/
theorem le_foldl_max (l : List ℚ) (init : ℚ) : init ≤ l.foldl max init := by
  induction l generalizing init with
  | nil => exact le_refl _
  | cons x xs ih => exact le_trans (le_max_left init x) (ih (max init x))

/-- Every list member is bounded by the `foldl max` result. -/
theorem mem_le_foldl_max (l : List ℚ) (init : ℚ) : ∀ v ∈ l, v ≤ l.foldl max init := by
  induction l generalizing init with
  | nil => intro v hv; cases hv
  | cons x xs ih =>
    intro v hv
    rcases List.mem_cons.mp hv with h | h
    · subst h; exact le_trans (le_max_right init v) (le_foldl_max xs (max init v))
    · exact ih (max init x) v h

/-- A `foldl max` result is the seed or one of the list members. -/
theorem foldl_max_mem (l : List ℚ) (init : ℚ) :
    l.foldl max init = init ∨ l.foldl max init ∈ l := by
  induction l generalizing init with
  | nil => exact Or.inl rfl
  | cons x xs ih =>
    rcases ih (max init x) with h | h
    · rcases max_choice init x with hm | hm
      · exact Or.inl (by rw [List.foldl_cons, h, hm])
      · exact Or.inr (List.mem_cons.mpr (Or.inl (by rw [List.foldl_cons, h, hm])))
    · exact Or.inr (List.mem_cons.mpr (Or.inr h))

/-- The zero offset belongs to every nonempty kernel window. -/
theorem zero_mem_windowOffsets (kx ky : ℕ) (h1 : 1 ≤ kx) (h2 : 1 ≤ ky) :
    ((0 : ℤ), (0 : ℤ)) ∈ windowOffsets kx ky := by
  have hx : kx / 2 < kx := Nat.div_lt_self (by omega) (by omega)
  have hy : ky / 2 < ky := Nat.div_lt_self (by omega) (by omega)
  have hmem : ((0 : ℤ), (0 : ℤ))
      ∈ (List.range ky).map
          (fun (dj : ℕ) =>
            (((kx / 2 : ℕ) : ℤ) - ((kx / 2 : ℕ) : ℤ), (dj : ℤ) - ((ky / 2 : ℕ) : ℤ))) :=
    List.mem_map.mpr ⟨ky / 2, List.mem_range.mpr hy, by simp⟩
  exact List.mem_flatMap.mpr ⟨kx / 2, List.mem_range.mpr hx, hmem⟩

/-- `pixAt` at in-bounds natural coordinates is `entryAt`. -/
theorem pixAt_coe (a : PixelArray) (i j : ℕ) (hi : i < a.length)
    (hj : j < ((a.get? i).getD []).length) :
    pixAt a (i : ℤ) (j : ℤ) = some (entryAt a i j) := by
  rcases h : a.get? i with _ | row
  · rw [List.get?_eq_none] at h; omega
  · rcases hv : row.get? j with _ | v
    · rw [h] at hj
      simp only [Option.getD_some] at hj
      rw [List.get?_eq_none] at hv
      omega
    · unfold pixAt
      rw [if_neg (by omega)]
      simp only [Int.toNat_natCast]
      rw [h]
      show row.get? j = some (entryAt a i j)
      unfold entryAt
      rw [h]
      simp only [Option.getD_some]
      rw [hv]
      rfl

/-- One dilation pass, read back entry-wise: the in-bounds output pixel
is the running maximum of the in-bounds kernel window seeded with the
pixel itself. -/
theorem entryAt_dilateOnce (kx ky : ℕ) (a : PixelArray) (i j : ℕ)
    (hi : i < a.length) (hj : j < ((a.get? i).getD []).length) :
    entryAt (dilateOnce kx ky a) i j
      = (neighborVals a kx ky (i : ℤ) (j : ℤ)).foldl max (entryAt a i j) := by
  unfold dilateOnce entryAt
  rw [List.get?_map, List.get?_range hi]
  simp only [Option.map_some', Option.getD_some]
  rw [List.get?_map, List.get?_range hj]
  simp only [Option.map_some', Option.getD_some]

/-- C4 (counterexample): both morphology dispatch bodies end without a
`return` statement, so the call evaluates to Python `None` — not to the
array reference the claim states — even though the buffer itself is
mutated (here a centred 1 dilated by a 3 × 3 kernel fills the grid). -/
theorem C4_counterexample :
    (FilterMorphologyDilate.dispatch ⟨3, 3, 1⟩ [[0, 0, 0], [0, 1, 0], [0, 0, 0]]).ret = none ∧
    (FilterMorphologyDilate.dispatch ⟨3, 3, 1⟩ [[0, 0, 0], [0, 1, 0], [0, 0, 0]]).buffer
      = [[1, 1, 1], [1, 1, 1], [1, 1, 1]] ∧
    (FilterMorphologyErode.dispatch ⟨3, 3, 1⟩ [[1, 1, 1], [1, 1, 1], [1, 1, 1]]).ret = none := by
  decide

/-- C4 (amended): the two inplace filters (`isInplaceOp` true) write the
iterated morphology result into the caller buffer and return `None`;
the caller must keep using the mutated input array, not the return
value. -/
theorem C4_inplace_semantics (p : FilterMorphologyProperties) (ds : DicomDS) (a : PixelArray) :
    isInplaceOp (FilterInstance.morphologyDilate p) = true ∧
    isInplaceOp (FilterInstance.morphologyErode p) = true ∧
    dispatch (FilterInstance.morphologyDilate p) ds a
      = ⟨(dilateOnce p.kernel_x p.kernel_y)^[p.iterations] a, none⟩ ∧
    dispatch (FilterInstance.morphologyErode p) ds a
      = ⟨(erodeOnce p.kernel_x p.kernel_y)^[p.iterations] a, none⟩ :=
  ⟨rfl, rfl, rfl, rfl⟩

/-- C7: the dilate dispatch applies `iterations` passes of the one-step
dilation to the shared buffer; one pass sets each in-bounds pixel to the
maximum over the in-bounds kernel window: the output value is attained
inside the window and dominates every window value. Concretely, a 3 × 3
kernel, one pass, on a single centred 1 fills the full 3 × 3
neighbourhood, and at the corner the filled neighbourhood is clipped at
the array bounds. -/
theorem C7_dilate_neighborhood_max (p : FilterMorphologyProperties) (ds : DicomDS)
    (a : PixelArray) (i j : ℕ) (hk1 : 1 ≤ p.kernel_x) (hk2 : 1 ≤ p.kernel_y)
    (hi : i < a.length) (hj : j < ((a.get? i).getD []).length) :
    (dispatch (FilterInstance.morphologyDilate p) ds a).buffer
      = (dilateOnce p.kernel_x p.kernel_y)^[p.iterations] a ∧
    entryAt (dilateOnce p.kernel_x p.kernel_y a) i j
      ∈ neighborVals a p.kernel_x p.kernel_y (i : ℤ) (j : ℤ) ∧
    (∀ v ∈ neighborVals a p.kernel_x p.kernel_y (i : ℤ) (j : ℤ),
      v ≤ entryAt (dilateOnce p.kernel_x p.kernel_y a) i j) ∧
    (FilterMorphologyDilate.dispatch ⟨3, 3, 1⟩
        [[0, 0, 0, 0, 0], [0, 0, 0, 0, 0], [0, 0, 1, 0, 0],
         [0, 0, 0, 0, 0], [0, 0, 0, 0, 0]]).buffer
      = [[0, 0, 0, 0, 0], [0, 1, 1, 1, 0], [0, 1, 1, 1, 0],
         [0, 1, 1, 1, 0], [0, 0, 0, 0, 0]] ∧
    (FilterMorphologyDilate.dispatch ⟨3, 3, 1⟩
        [[1, 0, 0], [0, 0, 0], [0, 0, 0]]).buffer
      = [[1, 1, 0], [1, 1, 0], [0, 0, 0]] := by
  have hcenter : entryAt a i j ∈ neighborVals a p.kernel_x p.kernel_y (i : ℤ) (j : ℤ) := by
    unfold neighborVals
    rw [List.mem_filterMap]
    refine ⟨(0, 0), zero_mem_windowOffsets _ _ hk1 hk2, ?_⟩
    simpa using pixAt_coe a i j hi hj
  refine ⟨rfl, ?_, ?_, by decide, by decide⟩
  · rw [entryAt_dilateOnce _ _ a i j hi hj]
    rcases foldl_max_mem (neighborVals a p.kernel_x p.kernel_y (i : ℤ) (j : ℤ))
        (entryAt a i j) with h | h
    · rw [h]; exact hcenter
    · exact h
  · intro v hv
    rw [entryAt_dilateOnce _ _ a i j hi hj]
    exact mem_le_foldl_max _ _ v hv

/-- Witness for C7 at kernel 3 × 3, one iteration, on the 5 × 5 array
with a single centred 1, read at the centre pixel. -/
theorem C7_dilate_neighborhood_max_witness :
    entryAt (dilateOnce 3 3
        [[0, 0, 0, 0, 0], [0, 0, 0, 0, 0], [0, 0, 1, 0, 0],
         [0, 0, 0, 0, 0], [0, 0, 0, 0, 0]]) 2 2
      ∈ neighborVals
        [[0, 0, 0, 0, 0], [0, 0, 0, 0, 0], [0, 0, 1, 0, 0],
         [0, 0, 0, 0, 0], [0, 0, 0, 0, 0]] 3 3 ((2 : ℕ) : ℤ) ((2 : ℕ) : ℤ) :=
  (C7_dilate_neighborhood_max ⟨3, 3, 1⟩ ⟨none, none⟩
    [[0, 0, 0, 0, 0], [0, 0, 0, 0, 0], [0, 0, 1, 0, 0],
     [0, 0, 0, 0, 0], [0, 0, 0, 0, 0]] 2 2
    (by decide) (by decide) (by decide) (by decide)).2.1

/-- C8 (counterexample): on a 3 × 3 grid holding a single centred 1 (a
convex filled region), dilating then eroding with the same 3 × 3 kernel
and one iteration yields the all-ones grid, not the original: the
dilation is clipped at the array bounds, so the erosion cannot undo it. -/
theorem C8_counterexample :
    (FilterMorphologyErode.dispatch ⟨3, 3, 1⟩
        (FilterMorphologyDilate.dispatch ⟨3, 3, 1⟩
          [[0, 0, 0], [0, 1, 0], [0, 0, 0]]).buffer).buffer
      = [[1, 1, 1], [1, 1, 1], [1, 1, 1]] ∧
    ([[1, 1, 1], [1, 1, 1], [1, 1, 1]] : PixelArray)
      ≠ [[0, 0, 0], [0, 1, 0], [0, 0, 0]] := by
  decide

/-- C8 (amended): the dilate-then-erode round trip with equal kernels
and one iteration restores a convex filled region when the dilated
region stays clear of the array border: here a single centred pixel in a
5 × 5 grid and a 3 × 3 filled square centred in a 7 × 7 grid, both with
the 3 × 3 kernel; it is not the identity when the dilation is clipped at
the bounds (see the counterexample). -/
theorem C8_roundtrip_interior :
    (FilterMorphologyErode.dispatch ⟨3, 3, 1⟩
        (FilterMorphologyDilate.dispatch ⟨3, 3, 1⟩
          [[0, 0, 0, 0, 0], [0, 0, 0, 0, 0], [0, 0, 1, 0, 0],
           [0, 0, 0, 0, 0], [0, 0, 0, 0, 0]]).buffer).buffer
      = [[0, 0, 0, 0, 0], [0, 0, 0, 0, 0], [0, 0, 1, 0, 0],
         [0, 0, 0, 0, 0], [0, 0, 0, 0, 0]] ∧
    (FilterMorphologyErode.dispatch ⟨3, 3, 1⟩
        (FilterMorphologyDilate.dispatch ⟨3, 3, 1⟩
          [[0, 0, 0, 0, 0, 0, 0], [0, 0, 0, 0, 0, 0, 0], [0, 0, 1, 1, 1, 0, 0],
           [0, 0, 1, 1, 1, 0, 0], [0, 0, 1, 1, 1, 0, 0], [0, 0, 0, 0, 0, 0, 0],
           [0, 0, 0, 0, 0, 0, 0]]).buffer).buffer
      = [[0, 0, 0, 0, 0, 0, 0], [0, 0, 0, 0, 0, 0, 0], [0, 0, 1, 1, 1, 0, 0],
         [0, 0, 1, 1, 1, 0, 0], [0, 0, 1, 1, 1, 0, 0], [0, 0, 0, 0, 0, 0, 0],
         [0, 0, 0, 0, 0, 0, 0]] := by
  decide
